import Mathlib

/-!
# Verification of the backup-and-restore transfer core

Shallow embedding of `backup-and-restore.py`: the Transfer Engine
(`backup` / `upload_large_files`), the Revision Resolver
(`help_select_revision`), and the Restore Coordinator (`restore` /
`restore_file`).  Remote calls are recorded as a trace of `DbxCall`
values; remote results and interactive answers are passed in as oracles.
-/

namespace BackupRestore

/-- `MAX_FILE_SIZE = 150` (MB threshold) from the source. -/
def MAX_FILE_SIZE : Nat := 150

/-- One MiB, the divisor in `file_size / (1024 * 1024)`. -/
def MiB : Nat := 1024 * 1024

/-- `CHUNK_SIZE = 8 * 1024 * 1024` from `upload_large_files`. -/
def CHUNK_SIZE : Nat := 8 * 1024 * 1024

/-- Dropbox `WriteMode` values relevant here. -/
inductive WriteMode where
  | overwrite
  | add
deriving DecidableEq, Repr

/-- One remote call issued by the code, with the payload sizes and cursor
offsets it carries.  Payloads are modelled by their byte count. -/
inductive DbxCall where
  | filesUpload (payload : Nat) (mode : WriteMode)
  | sessionStart (payload : Nat)
  | sessionAppend (offset payload : Nat)
  | sessionFinish (offset payload : Nat)
  | filesRestore (path rev : String)
  | filesDownload (path : String)
deriving DecidableEq, Repr

/-- The `while f.tell() < file_size` loop of `upload_large_files`.
`tell` is the file position after the reads so far; `f.read(CHUNK_SIZE)`
returns `min CHUNK_SIZE (file_size - tell)` bytes.  The cursor offset
carried by each call is the position before that read, exactly as
`cursor.offset` is maintained in the source. -/
def uploadSessionLoop (file_size tell : Nat) : List DbxCall :=
  if tell < file_size then
    if file_size - tell ≤ CHUNK_SIZE then
      [DbxCall.sessionFinish tell (min CHUNK_SIZE (file_size - tell))]
    else
      DbxCall.sessionAppend tell (min CHUNK_SIZE (file_size - tell)) ::
        uploadSessionLoop file_size (tell + min CHUNK_SIZE (file_size - tell))
  else []
termination_by file_size - tell
decreasing_by
  simp only [CHUNK_SIZE] at *
  omega

/-- `upload_large_files`: `files_upload_session_start(f.read(CHUNK_SIZE))`,
then the append/finish loop starting from `tell = bytes of the first read`. -/
def upload_large_files (file_size : Nat) : List DbxCall :=
  DbxCall.sessionStart (min CHUNK_SIZE file_size) ::
    uploadSessionLoop file_size (min CHUNK_SIZE file_size)

/-- `backup`: `file_size / (1024 * 1024) > MAX_FILE_SIZE` routes to the
chunked path, else a single `files_upload` with `WriteMode("overwrite")`.
The float comparison `file_size / (1024*1024) > 150` is equivalent to
`150 * 1024 * 1024 < file_size` (division by a power of two is exact). -/
def backup (file_size : Nat) : List DbxCall :=
  if MAX_FILE_SIZE * MiB < file_size then upload_large_files file_size
  else [DbxCall.filesUpload file_size WriteMode.overwrite]

/-- Bytes of payload carried by one remote call. -/
def payloadBytes : DbxCall → Nat
  | DbxCall.filesUpload n _ => n
  | DbxCall.sessionStart n => n
  | DbxCall.sessionAppend _ n => n
  | DbxCall.sessionFinish _ n => n
  | DbxCall.filesRestore _ _ => 0
  | DbxCall.filesDownload _ => 0

/-- Total payload bytes across a trace. -/
def sumPayloads (calls : List DbxCall) : Nat := (calls.map payloadBytes).sum

/-- Session-cursor validity of a trace: `consumed` is the byte count
acknowledged so far; every session call must carry `offset = consumed`
(the cursor after the previous acknowledged call), and the acknowledged
count never exceeds the file size. -/
def cursorTrace (file_size : Nat) : Nat → List DbxCall → Bool
  | _, [] => true
  | consumed, DbxCall.sessionStart n :: rest =>
      decide (consumed = 0) && decide (n ≤ file_size) &&
        cursorTrace file_size n rest
  | consumed, DbxCall.sessionAppend off n :: rest =>
      decide (off = consumed) && decide (consumed + n ≤ file_size) &&
        cursorTrace file_size (consumed + n) rest
  | consumed, DbxCall.sessionFinish off n :: rest =>
      decide (off = consumed) && decide (consumed + n ≤ file_size) &&
        cursorTrace file_size (consumed + n) rest
  | _, _ :: _ => false

/-- A trace consisting of zero or more `sessionAppend` calls followed by
exactly one terminal `sessionFinish`. -/
def appendsThenFinish : List DbxCall → Bool
  | [DbxCall.sessionFinish _ _] => true
  | DbxCall.sessionAppend _ _ :: rest => appendsThenFinish rest
  | _ => false

theorem appendsThenFinish_ne_nil {l : List DbxCall}
    (h : appendsThenFinish l = true) : l ≠ [] := by
  intro hnil
  subst hnil
  simp [appendsThenFinish] at h

theorem appendsThenFinish_cons_append (off n : Nat) (rest : List DbxCall) :
    appendsThenFinish (DbxCall.sessionAppend off n :: rest) =
      appendsThenFinish rest := rfl

theorem appendsThenFinish_single_finish (off n : Nat) :
    appendsThenFinish [DbxCall.sessionFinish off n] = true := rfl

theorem sumPayloads_cons (c : DbxCall) (l : List DbxCall) :
    sumPayloads (c :: l) = payloadBytes c + sumPayloads l := by
  simp [sumPayloads]

theorem cursorTrace_nil (fs consumed : Nat) :
    cursorTrace fs consumed [] = true := rfl

theorem cursorTrace_start (fs consumed n : Nat) (rest : List DbxCall) :
    cursorTrace fs consumed (DbxCall.sessionStart n :: rest) =
      (decide (consumed = 0) && decide (n ≤ fs) &&
        cursorTrace fs n rest) := rfl

theorem cursorTrace_append_cons (fs consumed off n : Nat)
    (rest : List DbxCall) :
    cursorTrace fs consumed (DbxCall.sessionAppend off n :: rest) =
      (decide (off = consumed) && decide (consumed + n ≤ fs) &&
        cursorTrace fs (consumed + n) rest) := rfl

theorem cursorTrace_finish_cons (fs consumed off n : Nat)
    (rest : List DbxCall) :
    cursorTrace fs consumed (DbxCall.sessionFinish off n :: rest) =
      (decide (off = consumed) && decide (consumed + n ≤ fs) &&
        cursorTrace fs (consumed + n) rest) := rfl

theorem uploadSessionLoop_props :
    ∀ (n file_size tell : Nat), file_size - tell ≤ n → tell < file_size →
      appendsThenFinish (uploadSessionLoop file_size tell) = true ∧
      sumPayloads (uploadSessionLoop file_size tell) = file_size - tell ∧
      cursorTrace file_size tell (uploadSessionLoop file_size tell) = true := by
  intro n
  induction n with
  | zero =>
    intro fs tell hle hlt
    omega
  | succ n ih =>
    intro fs tell hle hlt
    have hchunk : CHUNK_SIZE = 8388608 := rfl
    rw [uploadSessionLoop]
    by_cases hrem : fs - tell ≤ CHUNK_SIZE
    · have hmin : min CHUNK_SIZE (fs - tell) = fs - tell := by omega
      rw [if_pos hlt, if_pos hrem, hmin]
      refine ⟨rfl, ?_, ?_⟩
      · rw [sumPayloads_cons]
        simp [sumPayloads, payloadBytes]
      · rw [cursorTrace_finish_cons, cursorTrace_nil]
        simp only [Bool.and_eq_true, decide_eq_true_eq]
        exact ⟨⟨trivial, by omega⟩, trivial⟩
    · have hmin : min CHUNK_SIZE (fs - tell) = CHUNK_SIZE := by omega
      rw [if_pos hlt, if_neg hrem, hmin]
      have hlt2 : tell + CHUNK_SIZE < fs := by omega
      have hle2 : fs - (tell + CHUNK_SIZE) ≤ n := by omega
      obtain ⟨h1, h2, h3⟩ := ih fs (tell + CHUNK_SIZE) hle2 hlt2
      refine ⟨?_, ?_, ?_⟩
      · rw [appendsThenFinish_cons_append]
        exact h1
      · rw [sumPayloads_cons, h2]
        simp only [payloadBytes]
        omega
      · rw [cursorTrace_append_cons]
        simp only [Bool.and_eq_true, decide_eq_true_eq]
        exact ⟨⟨trivial, by omega⟩, h3⟩

theorem uploadSessionLoop_getLast :
    ∀ (n file_size tell : Nat), file_size - tell ≤ n → tell < file_size →
      CHUNK_SIZE ∣ (file_size - tell) →
      (uploadSessionLoop file_size tell).getLast? =
        some (DbxCall.sessionFinish (file_size - CHUNK_SIZE) CHUNK_SIZE) := by
  intro n
  induction n with
  | zero =>
    intro fs tell hle hlt
    omega
  | succ n ih =>
    intro fs tell hle hlt hdvd
    have hchunk : CHUNK_SIZE = 8388608 := rfl
    rw [uploadSessionLoop]
    by_cases hrem : fs - tell ≤ CHUNK_SIZE
    · have heq : fs - tell = CHUNK_SIZE := by
        rw [hchunk] at hdvd hrem ⊢
        omega
      have htell : tell = fs - CHUNK_SIZE := by omega
      rw [if_pos hlt, if_pos hrem, heq, htell]
      simp
    · have hmin : min CHUNK_SIZE (fs - tell) = CHUNK_SIZE := by omega
      rw [if_pos hlt, if_neg hrem, hmin]
      have hlt2 : tell + CHUNK_SIZE < fs := by
        rw [hchunk] at hdvd hrem ⊢
        omega
      have hle2 : fs - (tell + CHUNK_SIZE) ≤ n := by omega
      have hdvd2 : CHUNK_SIZE ∣ (fs - (tell + CHUNK_SIZE)) := by
        rw [hchunk] at hdvd ⊢
        omega
      have htail := ih fs (tell + CHUNK_SIZE) hle2 hlt2 hdvd2
      have hne : uploadSessionLoop fs (tell + CHUNK_SIZE) ≠ [] :=
        appendsThenFinish_ne_nil
          (uploadSessionLoop_props (fs - (tell + CHUNK_SIZE)) fs
            (tell + CHUNK_SIZE) le_rfl hlt2).1
      obtain ⟨hd, tl, hcons⟩ := List.exists_cons_of_ne_nil hne
      rw [hcons] at htail ⊢
      rw [List.getLast?_cons_cons]
      exact htail

/-- C1: on the chunked path (size strictly above the 150 MiB threshold),
the trace is exactly one `sessionStart` of a full chunk, then zero or more
`sessionAppend` calls, then one terminal `sessionFinish`; payload bytes
sum to the file size; every call carries the cursor offset equal to the
bytes consumed so far, never exceeding the file size; and when the size
is an exact multiple of the 8 MiB chunk, the trace ends on a
`sessionFinish` carrying a full chunk with no append after the final
boundary. -/
theorem chunked_upload_protocol (file_size : Nat)
    (h : MAX_FILE_SIZE * MiB < file_size) :
    (∃ rest, backup file_size = DbxCall.sessionStart CHUNK_SIZE :: rest ∧
      appendsThenFinish rest = true) ∧
    sumPayloads (backup file_size) = file_size ∧
    cursorTrace file_size 0 (backup file_size) = true ∧
    (CHUNK_SIZE ∣ file_size →
      (backup file_size).getLast? =
        some (DbxCall.sessionFinish (file_size - CHUNK_SIZE) CHUNK_SIZE)) := by
  have hth : MAX_FILE_SIZE * MiB = 157286400 := rfl
  have hchunk : CHUNK_SIZE = 8388608 := rfl
  have hbig : CHUNK_SIZE < file_size := by omega
  have hmin : min CHUNK_SIZE file_size = CHUNK_SIZE := by omega
  have hbk : backup file_size =
      DbxCall.sessionStart CHUNK_SIZE ::
        uploadSessionLoop file_size CHUNK_SIZE := by
    rw [backup, if_pos h, upload_large_files, hmin]
  obtain ⟨h1, h2, h3⟩ := uploadSessionLoop_props (file_size - CHUNK_SIZE)
    file_size CHUNK_SIZE le_rfl hbig
  refine ⟨⟨uploadSessionLoop file_size CHUNK_SIZE, hbk, h1⟩, ?_, ?_, ?_⟩
  · rw [hbk, sumPayloads_cons, h2]
    simp only [payloadBytes]
    omega
  · rw [hbk, cursorTrace_start]
    simp only [Bool.and_eq_true, decide_eq_true_eq]
    exact ⟨⟨trivial, by omega⟩, h3⟩
  · intro hdvd
    have hdvd2 : CHUNK_SIZE ∣ (file_size - CHUNK_SIZE) := by
      rw [hchunk] at hdvd ⊢
      omega
    have htail := uploadSessionLoop_getLast (file_size - CHUNK_SIZE)
      file_size CHUNK_SIZE le_rfl hbig hdvd2
    rw [hbk]
    have hne : uploadSessionLoop file_size CHUNK_SIZE ≠ [] :=
      appendsThenFinish_ne_nil h1
    obtain ⟨hd, tl, hcons⟩ := List.exists_cons_of_ne_nil hne
    rw [hcons] at htail ⊢
    rw [List.getLast?_cons_cons]
    exact htail

/-- Witness for C1 at the concrete size 152 MiB (a multiple of 8 MiB that
exceeds the threshold). -/
theorem chunked_upload_protocol_witness :
    MAX_FILE_SIZE * MiB < 152 * MiB ∧
    ((∃ rest, backup (152 * MiB) = DbxCall.sessionStart CHUNK_SIZE :: rest ∧
        appendsThenFinish rest = true) ∧
      sumPayloads (backup (152 * MiB)) = 152 * MiB ∧
      cursorTrace (152 * MiB) 0 (backup (152 * MiB)) = true ∧
      (CHUNK_SIZE ∣ 152 * MiB →
        (backup (152 * MiB)).getLast? =
          some (DbxCall.sessionFinish (152 * MiB - CHUNK_SIZE) CHUNK_SIZE))) :=
  ⟨by decide, chunked_upload_protocol (152 * MiB) (by decide)⟩

/-- C2: every file of at most the threshold size is uploaded by exactly one
`files_upload` call in overwrite mode, with no session call; only strictly
larger files start a session. -/
theorem single_shot_upload (file_size : Nat) :
    (file_size ≤ MAX_FILE_SIZE * MiB →
      backup file_size = [DbxCall.filesUpload file_size WriteMode.overwrite]) ∧
    (MAX_FILE_SIZE * MiB < file_size →
      ∃ rest, backup file_size =
        DbxCall.sessionStart (min CHUNK_SIZE file_size) :: rest) := by
  constructor
  · intro hle
    rw [backup, if_neg (by omega)]
  · intro hlt
    exact ⟨uploadSessionLoop file_size (min CHUNK_SIZE file_size),
      by rw [backup, if_pos hlt, upload_large_files]⟩

/-- Witness for C2 at the concrete size 10 MiB. -/
theorem single_shot_upload_witness :
    backup (10 * MiB) = [DbxCall.filesUpload (10 * MiB) WriteMode.overwrite] :=
  (single_shot_upload (10 * MiB)).1 (by decide)

/-! ## Error classification and control flow

The `ApiError` inspection (`err.error.is_path() and
err.error.get_path().reason.is_insufficient_space()` / the
`err.user_message_text` fallback) is modelled as a three-way
classification of the raised error. -/

/-- Classification of a raised `ApiError` as the handlers distinguish it. -/
inductive ApiErrorKind where
  | insufficientSpace
  | withUserMessage (msg : String)
  | other (msg : String)
deriving DecidableEq, Repr

/-- How a code path ends: a normal Python `return`, or `sys.exit` with an
optional argument (which terminates the process). -/
inductive Termination where
  | normalReturn
  | processExit (arg : Option String)
deriving DecidableEq, Repr

/-- Whether a `Termination` value terminates the process. -/
def Termination.isExit : Termination → Bool
  | Termination.processExit _ => true
  | Termination.normalReturn => false

/-- Messages printed and how the path ends. -/
structure Outcome where
  printed : List String
  ending : Termination
deriving DecidableEq, Repr

/-- The `except ApiError` handler of `backup` (single-shot path): every
branch ends in `sys.exit` — with a message for insufficient space, after
`print` otherwise. -/
def backupHandleApiError : ApiErrorKind → Outcome
  | ApiErrorKind.insufficientSpace =>
      ⟨[], Termination.processExit
        (some "ERROR: Cannot back up; insufficient space.")⟩
  | ApiErrorKind.withUserMessage m => ⟨[m], Termination.processExit none⟩
  | ApiErrorKind.other m => ⟨[m], Termination.processExit none⟩

/-- The `except ApiError` handler of `upload_large_files`: `sys.exit` on
insufficient space, otherwise `print` and fall through (normal return). -/
def uploadLargeFilesHandleApiError : ApiErrorKind → Outcome
  | ApiErrorKind.insufficientSpace =>
      ⟨[], Termination.processExit
        (some "ERROR: Cannot back up; insufficient space.")⟩
  | ApiErrorKind.withUserMessage m => ⟨[m], Termination.normalReturn⟩
  | ApiErrorKind.other m =>
      ⟨["API error: " ++ m], Termination.normalReturn⟩

/-- Outcome of one `upload_large_files` run whose remote calls either all
succeed (`none`) or raise the given `ApiError`. -/
def uploadLargeFilesOutcome : Option ApiErrorKind → Outcome
  | none => ⟨[], Termination.normalReturn⟩
  | some e => uploadLargeFilesHandleApiError e

/-- Outcome of one `backup` run: the threshold routes to the chunked path
(whose handler swallows generic errors) or the single-shot path (whose
handler exits on every error). -/
def backupOutcome (file_size : Nat) (apiResult : Option ApiErrorKind) :
    Outcome :=
  if MAX_FILE_SIZE * MiB < file_size then uploadLargeFilesOutcome apiResult
  else
    match apiResult with
    | none => ⟨[], Termination.normalReturn⟩
    | some e => backupHandleApiError e

/-- The `backup_files` command loop: run `backup` on each file in turn
(a `sys.exit` inside `backup` terminates the whole process), then echo
the success banner.  File-list loading and the local existence pre-check
are local-IO glue and are not modelled. -/
def backupFilesRun : List (Nat × Option ApiErrorKind) → Outcome
  | [] => ⟨["All files backed up successfully."], Termination.normalReturn⟩
  | (file_size, apiResult) :: rest =>
    let o := backupOutcome file_size apiResult
    match o.ending with
    | Termination.processExit m => ⟨o.printed, Termination.processExit m⟩
    | Termination.normalReturn =>
      let r := backupFilesRun rest
      ⟨o.printed ++ r.printed, r.ending⟩

/-- The `except ApiError` handler of `restore_file`: every branch only
prints (via `click.secho`) and returns. -/
def restoreFileHandleApiError : ApiErrorKind → List String
  | ApiErrorKind.insufficientSpace =>
      ["ERROR: Cannot restore; insufficient space."]
  | ApiErrorKind.withUserMessage m => [m]
  | ApiErrorKind.other m => ["Error restoring file: " ++ m]

/-- What `restore_file` reports after the `try` block: the success echo,
or the classified error message; both end in a normal return. -/
def restoreFileReport (file_path rev : String) :
    Option ApiErrorKind → Outcome
  | none => ⟨["File " ++ file_path ++ " restored to revision " ++ rev ++
      " successfully."], Termination.normalReturn⟩
  | some e => ⟨restoreFileHandleApiError e, Termination.normalReturn⟩

/-- C3 counterexample: `backup` of a small file whose put call fails with
capacity exhaustion terminates the process via `sys.exit` instead of
returning an error to the caller. -/
theorem backup_exits_on_capacity :
    (backupOutcome (10 * MiB)
        (some ApiErrorKind.insufficientSpace)).ending =
      Termination.processExit
        (some "ERROR: Cannot back up; insufficient space.") := by
  decide

/-- C3 amended: the single-shot `backup` handler terminates the process on
every `ApiError`; the chunked-path handler terminates the process exactly
on capacity exhaustion, and prints-then-returns on the two generic error
shapes; the `restore_file` handler reports and returns normally. -/
theorem core_exit_behavior (e : ApiErrorKind) (m file_path rev : String) :
    (backupHandleApiError e).ending.isExit = true ∧
    ((uploadLargeFilesHandleApiError e).ending.isExit = true ↔
      e = ApiErrorKind.insufficientSpace) ∧
    uploadLargeFilesHandleApiError (ApiErrorKind.other m) =
      ⟨["API error: " ++ m], Termination.normalReturn⟩ ∧
    uploadLargeFilesHandleApiError (ApiErrorKind.withUserMessage m) =
      ⟨[m], Termination.normalReturn⟩ ∧
    (restoreFileReport file_path rev (some e)).ending =
      Termination.normalReturn := by
  refine ⟨?_, ?_, rfl, rfl, rfl⟩ <;>
    cases e <;> simp [backupHandleApiError,
      uploadLargeFilesHandleApiError, Termination.isExit]

/-- Witness for the amended C3 statement at a concrete error. -/
theorem core_exit_behavior_witness :
    (backupHandleApiError (ApiErrorKind.other "boom")).ending.isExit =
        true ∧
    ((uploadLargeFilesHandleApiError
        (ApiErrorKind.other "boom")).ending.isExit = true ↔
      ApiErrorKind.other "boom" = ApiErrorKind.insufficientSpace) ∧
    uploadLargeFilesHandleApiError (ApiErrorKind.other "msg") =
      ⟨["API error: " ++ "msg"], Termination.normalReturn⟩ ∧
    uploadLargeFilesHandleApiError (ApiErrorKind.withUserMessage "msg") =
      ⟨["msg"], Termination.normalReturn⟩ ∧
    (restoreFileReport "f.txt" "r1"
        (some (ApiErrorKind.other "boom"))).ending =
      Termination.normalReturn :=
  core_exit_behavior (ApiErrorKind.other "boom") "msg" "f.txt" "r1"

/-- C8 counterexample: a chunked upload failing with a generic remote
error yields, at the caller, exactly the same termination as a fully
successful run (the function prints and returns `None` either way), and
the batch `backup_files` command still ends with the overall success
banner — the caller cannot observe that the file was not uploaded. -/
theorem chunked_generic_error_invisible_to_caller :
    (uploadLargeFilesOutcome (some (ApiErrorKind.other "boom"))).ending =
      (uploadLargeFilesOutcome none).ending ∧
    (backupFilesRun
        [(160 * MiB, some (ApiErrorKind.other "boom"))]).ending =
      Termination.normalReturn ∧
    (backupFilesRun
        [(160 * MiB, some (ApiErrorKind.other "boom"))]).printed.getLast? =
      some "All files backed up successfully." := by
  decide

/-- C8 amended: a generic (non-capacity) remote error on the chunked path
is reported by printing the server message or a generic API-error line
(never silently swallowed), but the function then returns normally, so
the caller receives the same return as on success and a batch backup
over that file still prints the overall success banner. -/
theorem chunked_generic_error_reported_not_raised (m : String) (sz : Nat)
    (h : MAX_FILE_SIZE * MiB < sz) :
    (uploadLargeFilesOutcome (some (ApiErrorKind.other m))).printed =
      ["API error: " ++ m] ∧
    (uploadLargeFilesOutcome (some (ApiErrorKind.other m))).ending =
      Termination.normalReturn ∧
    (uploadLargeFilesOutcome
        (some (ApiErrorKind.withUserMessage m))).printed = [m] ∧
    backupFilesRun [(sz, some (ApiErrorKind.other m))] =
      ⟨["API error: " ++ m, "All files backed up successfully."],
        Termination.normalReturn⟩ := by
  refine ⟨rfl, rfl, rfl, ?_⟩
  simp only [backupFilesRun, backupOutcome, if_pos h]
  rfl

/-- Witness for the amended C8 statement at a concrete error and size. -/
theorem chunked_generic_error_reported_not_raised_witness :
    MAX_FILE_SIZE * MiB < 160 * MiB ∧
    ((uploadLargeFilesOutcome
        (some (ApiErrorKind.other "nope"))).printed =
      ["API error: " ++ "nope"] ∧
    (uploadLargeFilesOutcome (some (ApiErrorKind.other "nope"))).ending =
      Termination.normalReturn ∧
    (uploadLargeFilesOutcome
        (some (ApiErrorKind.withUserMessage "nope"))).printed = ["nope"] ∧
    backupFilesRun [(160 * MiB, some (ApiErrorKind.other "nope"))] =
      ⟨["API error: " ++ "nope", "All files backed up successfully."],
        Termination.normalReturn⟩) :=
  ⟨by decide,
    chunked_generic_error_reported_not_raised "nope" (160 * MiB) (by decide)⟩

/-! ## Restore Coordinator

The local file system is modelled as a map from paths to contents.
`restore` takes the remote results and the interactive answer as
oracles.  `open(local_file, "wb")` truncates the file before
`files_download` runs, exactly as in the source.  The overwrite prompt
response is modelled as the already `.strip().lower()`-normalised
string (the normalisation acts on the external interactive input). -/

/-- State after a `restore` run: the local file system, the trace of
remote calls, the `ApiError` that escaped (if any), and the path the
code announces as restored. -/
structure RestoreState where
  fs : String → Option String
  calls : List DbxCall
  raised : Option ApiErrorKind
  writtenPath : Option String

/-- Target-path resolution in `restore`: if the local file exists the
user is prompted; any (normalised) answer other than `"y"` renames the
target to `local_file ++ "_rev_" ++ rev`.  A missing local file is
downloaded to `local_file` with no prompt. -/
def resolveTarget (fs : String → Option String)
    (local_file rev answer : String) : String :=
  if (fs local_file).isSome then
    if answer ≠ "y" then local_file ++ "_rev_" ++ rev else local_file
  else local_file

/-- One `restore` run.  `files_restore` is called first; if it raises,
nothing else happens.  Otherwise the target path is resolved, the target
is truncated by `open(..., "wb")`, and `files_download` either supplies
the content that is then written, or raises, leaving the truncated file. -/
def restoreRun (fs : String → Option String)
    (local_file backup_path rev : String)
    (filesRestoreErr : Option ApiErrorKind) (answer : String)
    (downloadRes : Sum ApiErrorKind String) : RestoreState :=
  match filesRestoreErr with
  | some e => ⟨fs, [DbxCall.filesRestore backup_path rev], some e, none⟩
  | none =>
    let target := resolveTarget fs local_file rev answer
    match downloadRes with
    | Sum.inl e =>
        ⟨fun p => if p = target then some "" else fs p,
          [DbxCall.filesRestore backup_path rev,
            DbxCall.filesDownload backup_path],
          some e, none⟩
    | Sum.inr content =>
        ⟨fun p => if p = target then some content else fs p,
          [DbxCall.filesRestore backup_path rev,
            DbxCall.filesDownload backup_path],
          none, some target⟩

/-- C6: when the server-side `files_restore` raises capacity exhaustion,
the trace is that single call — `files_download` is never attempted —
the local file system is untouched, and `restore_file` reports the
capacity-exhaustion message with a normal return. -/
theorem restore_capacity_aborts (fs : String → Option String)
    (local_file backup_path rev answer : String)
    (downloadRes : Sum ApiErrorKind String) :
    (restoreRun fs local_file backup_path rev
        (some ApiErrorKind.insufficientSpace) answer downloadRes).calls =
      [DbxCall.filesRestore backup_path rev] ∧
    DbxCall.filesDownload backup_path ∉
      (restoreRun fs local_file backup_path rev
        (some ApiErrorKind.insufficientSpace) answer downloadRes).calls ∧
    (restoreRun fs local_file backup_path rev
        (some ApiErrorKind.insufficientSpace) answer downloadRes).fs = fs ∧
    (restoreFileReport local_file rev
        (restoreRun fs local_file backup_path rev
          (some ApiErrorKind.insufficientSpace) answer
          downloadRes).raised) =
      ⟨["ERROR: Cannot restore; insufficient space."],
        Termination.normalReturn⟩ := by
  refine ⟨rfl, ?_, rfl, rfl⟩
  simp [restoreRun]

/-- The appended `_rev_` suffix always produces a different path. -/
theorem rev_suffix_ne (local_file rev : String) :
    local_file ≠ local_file ++ "_rev_" ++ rev := by
  intro h
  have hlen : local_file.length =
      local_file.length + ("_rev_".length + rev.length) := by
    calc local_file.length
        = (local_file ++ "_rev_" ++ rev).length := by rw [← h]
      _ = local_file.length + ("_rev_".length + rev.length) := by
          simp [String.length_append, Nat.add_assoc]
  have : "_rev_".length = 5 := rfl
  omega

/-- C7: when the local file exists, the user declines the overwrite, and
the download succeeds, the content lands at `local_file ++ "_rev_" ++ rev`
and the original file keeps its previous content. -/
theorem restore_decline_writes_alternate (fs : String → Option String)
    (local_file backup_path rev answer content c : String)
    (hex : fs local_file = some c) (hdecl : answer ≠ "y") :
    (restoreRun fs local_file backup_path rev none answer
        (Sum.inr content)).fs (local_file ++ "_rev_" ++ rev) =
      some content ∧
    (restoreRun fs local_file backup_path rev none answer
        (Sum.inr content)).fs local_file = some c ∧
    (restoreRun fs local_file backup_path rev none answer
        (Sum.inr content)).writtenPath =
      some (local_file ++ "_rev_" ++ rev) := by
  have htarget : resolveTarget fs local_file rev answer =
      local_file ++ "_rev_" ++ rev := by
    rw [resolveTarget, if_pos (by rw [hex]; rfl), if_pos hdecl]
  refine ⟨?_, ?_, ?_⟩
  · show (if (local_file ++ "_rev_" ++ rev) =
        resolveTarget fs local_file rev answer then some content
      else fs (local_file ++ "_rev_" ++ rev)) = some content
    rw [htarget, if_pos rfl]
  · show (if local_file = resolveTarget fs local_file rev answer
      then some content else fs local_file) = some c
    rw [htarget, if_neg (rev_suffix_ne local_file rev), hex]
  · show some (resolveTarget fs local_file rev answer) =
      some (local_file ++ "_rev_" ++ rev)
    rw [htarget]

/-- Witness for C7 on a concrete file system. -/
theorem restore_decline_writes_alternate_witness :
    (fun p => if p = "settings.txt" then some "olddata" else none :
        String → Option String) "settings.txt" = some "olddata" ∧
    "n" ≠ "y" ∧
    ((restoreRun
        (fun p => if p = "settings.txt" then some "olddata" else none)
        "settings.txt" "/backup/settings.txt" "r42" none "n"
        (Sum.inr "newdata")).fs
          ("settings.txt" ++ "_rev_" ++ "r42") = some "newdata" ∧
      (restoreRun
        (fun p => if p = "settings.txt" then some "olddata" else none)
        "settings.txt" "/backup/settings.txt" "r42" none "n"
        (Sum.inr "newdata")).fs "settings.txt" = some "olddata" ∧
      (restoreRun
        (fun p => if p = "settings.txt" then some "olddata" else none)
        "settings.txt" "/backup/settings.txt" "r42" none "n"
        (Sum.inr "newdata")).writtenPath =
        some ("settings.txt" ++ "_rev_" ++ "r42")) :=
  ⟨by decide, by decide,
    restore_decline_writes_alternate
      (fun p => if p = "settings.txt" then some "olddata" else none)
      "settings.txt" "/backup/settings.txt" "r42" "n" "newdata" "olddata"
      (by decide) (by decide)⟩

/-- C4 counterexample: the local file exists with content `"olddata"`,
the user accepts the overwrite, and `files_download` raises — the
operation reports failure, yet the resolved local path is left holding a
truncated empty file (the `open(..., "wb")` ran before the download), so
a partial file replaces the original content. -/
theorem restore_failure_leaves_truncated_file :
    ((restoreRun
        (fun p => if p = "settings.txt" then some "olddata" else none)
        "settings.txt" "/backup/settings.txt" "r42" none "y"
        (Sum.inl (ApiErrorKind.other "network"))).raised).isSome = true ∧
    (restoreRun
        (fun p => if p = "settings.txt" then some "olddata" else none)
        "settings.txt" "/backup/settings.txt" "r42" none "y"
        (Sum.inl (ApiErrorKind.other "network"))).fs "settings.txt" =
      some "" ∧
    (fun p => if p = "settings.txt" then some "olddata" else none :
        String → Option String) "settings.txt" = some "olddata" := by
  refine ⟨rfl, by decide, by decide⟩

/-- C4 amended: if the download succeeds the resolved path holds the
complete downloaded byte stream; if the download fails the operation
reports the failure, but the resolved path has already been truncated by
`open(..., "wb")` and is left as an empty file — the write is not atomic. -/
theorem restore_download_not_atomic (fs : String → Option String)
    (local_file backup_path rev answer content : String)
    (e : ApiErrorKind) :
    ((restoreRun fs local_file backup_path rev none answer
        (Sum.inr content)).fs
        (resolveTarget fs local_file rev answer) = some content ∧
      (restoreRun fs local_file backup_path rev none answer
        (Sum.inr content)).writtenPath =
        some (resolveTarget fs local_file rev answer) ∧
      (restoreRun fs local_file backup_path rev none answer
        (Sum.inr content)).raised = none) ∧
    ((restoreRun fs local_file backup_path rev none answer
        (Sum.inl e)).raised = some e ∧
      (restoreRun fs local_file backup_path rev none answer
        (Sum.inl e)).fs
        (resolveTarget fs local_file rev answer) = some "") := by
  refine ⟨⟨?_, rfl, rfl⟩, rfl, ?_⟩
  · show (if resolveTarget fs local_file rev answer =
        resolveTarget fs local_file rev answer then some content
      else _) = some content
    rw [if_pos rfl]
  · show (if resolveTarget fs local_file rev answer =
        resolveTarget fs local_file rev answer then some "" else _) =
      some ""
    rw [if_pos rfl]

/-- C10: when the local file exists, the user declines the overwrite, and
the alternate path `local_file ++ "_rev_" ++ rev` itself already holds a
file, the alternate file is overwritten unconditionally with the
downloaded content — no existence check or prompt guards it — while the
original file keeps its content. -/
theorem alternate_path_overwritten (fs : String → Option String)
    (local_file backup_path rev answer content c oldAlt : String)
    (hex : fs local_file = some c)
    (_haltex : fs (local_file ++ "_rev_" ++ rev) = some oldAlt)
    (hdecl : answer ≠ "y") :
    (restoreRun fs local_file backup_path rev none answer
        (Sum.inr content)).fs (local_file ++ "_rev_" ++ rev) =
      some content ∧
    (restoreRun fs local_file backup_path rev none answer
        (Sum.inr content)).fs local_file = some c := by
  have htarget : resolveTarget fs local_file rev answer =
      local_file ++ "_rev_" ++ rev := by
    rw [resolveTarget, if_pos (by rw [hex]; rfl), if_pos hdecl]
  constructor
  · show (if (local_file ++ "_rev_" ++ rev) =
        resolveTarget fs local_file rev answer then some content
      else _) = some content
    rw [htarget, if_pos rfl]
  · show (if local_file = resolveTarget fs local_file rev answer
      then some content else fs local_file) = some c
    rw [htarget, if_neg (rev_suffix_ne local_file rev), hex]

/-- Witness for C10 on a concrete file system where both the original and
the alternate path already exist. -/
theorem alternate_path_overwritten_witness :
    (fun p => if p = "settings.txt" then some "olddata"
        else if p = "settings.txt" ++ "_rev_" ++ "r42" then some "stale"
        else none : String → Option String) "settings.txt" =
      some "olddata" ∧
    (fun p => if p = "settings.txt" then some "olddata"
        else if p = "settings.txt" ++ "_rev_" ++ "r42" then some "stale"
        else none : String → Option String)
      ("settings.txt" ++ "_rev_" ++ "r42") = some "stale" ∧
    "n" ≠ "y" ∧
    ((restoreRun
        (fun p => if p = "settings.txt" then some "olddata"
          else if p = "settings.txt" ++ "_rev_" ++ "r42" then some "stale"
          else none)
        "settings.txt" "/backup/settings.txt" "r42" none "n"
        (Sum.inr "newdata")).fs
          ("settings.txt" ++ "_rev_" ++ "r42") = some "newdata" ∧
      (restoreRun
        (fun p => if p = "settings.txt" then some "olddata"
          else if p = "settings.txt" ++ "_rev_" ++ "r42" then some "stale"
          else none)
        "settings.txt" "/backup/settings.txt" "r42" none "n"
        (Sum.inr "newdata")).fs "settings.txt" = some "olddata") :=
  ⟨by decide, by decide, by decide,
    alternate_path_overwritten
      (fun p => if p = "settings.txt" then some "olddata"
        else if p = "settings.txt" ++ "_rev_" ++ "r42" then some "stale"
        else none)
      "settings.txt" "/backup/settings.txt" "r42" "n" "newdata" "olddata"
      "stale" (by decide) (by decide) (by decide)⟩

/-! ## Revision Resolver

`help_select_revision` lists the revisions of a backup path, sorts them
by `server_modified`, and prompts in a loop for a 1-based index.  The
scripted `inputs` list models the successive interactive answers. -/

/-- One revision entry as consumed by the code: its `server_modified`
timestamp (as a totally ordered number), its size, and its `rev` id. -/
structure RevisionEntry where
  server_modified : Nat
  size : Nat
  rev : String
deriving DecidableEq, Repr

/-- Modelled from the spec: the RemoteStore collaborator's revision
listing (`dbx.files_list_revisions(backup_path, limit=...)`, the Dropbox
SDK call, which is not part of this repository).  §4.2 of the spec: it
yields at most `limit` entries in listing order and "produces an empty
sequence (not an error) when the key has no history"; `history` is the
key's stored revision history. -/
def listRevisions (history : List RevisionEntry) (limit : Nat) :
    Except ApiErrorKind (List RevisionEntry) :=
  Except.ok (history.take limit)

/-- `sorted(revisions, key=lambda revision: revision.server_modified)`:
a stable sort ascending by `server_modified`. -/
def sortRevisions (revisions : List RevisionEntry) : List RevisionEntry :=
  revisions.mergeSort
    (fun a b => decide (a.server_modified ≤ b.server_modified))

/-- How a `help_select_revision` run can end, seen as a Python event:
an uncaught exception or a value returned. -/
inductive PyEvent where
  | indexError
  | apiRaised (e : ApiErrorKind)
  | blockedOnInput
deriving DecidableEq, Repr

/-- The `while True` prompt loop of `help_select_revision`: an index in
`[1, len(revisions)]` selects from the sorted list (list indexing is
modelled fallibly, an out-of-range access being an `IndexError`); `0`
returns `None`; anything else re-prompts with the remaining inputs. -/
def selectLoop (revisions sortedRevs : List RevisionEntry) :
    List Int → Except PyEvent (Option String)
  | [] => Except.error PyEvent.blockedOnInput
  | selected_index :: rest =>
    if 1 ≤ selected_index ∧ selected_index ≤ (revisions.length : Int) then
      match sortedRevs[(selected_index - 1).toNat]? with
      | some r => Except.ok (some r.rev)
      | none => Except.error PyEvent.indexError
    else if selected_index = 0 then Except.ok none
    else selectLoop revisions sortedRevs rest

/-- `help_select_revision`: list the revisions (limit 30), return `None`
when there are none, else sort and run the selection loop. -/
def help_select_revision (history : List RevisionEntry)
    (inputs : List Int) : Except PyEvent (Option String) :=
  match listRevisions history 30 with
  | Except.error e => Except.error (PyEvent.apiRaised e)
  | Except.ok revisions =>
    if revisions.isEmpty then Except.ok none
    else selectLoop revisions (sortRevisions revisions) inputs

theorem sortRevisions_length (revisions : List RevisionEntry) :
    (sortRevisions revisions).length = revisions.length := by
  simp [sortRevisions, List.length_mergeSort]

/-- The selection loop never raises an out-of-range `IndexError` when the
two lists have equal length: the bound check guards every access. -/
theorem selectLoop_no_indexError (revisions sortedRevs : List RevisionEntry)
    (hlen : sortedRevs.length = revisions.length) :
    ∀ inputs, selectLoop revisions sortedRevs inputs ≠
      Except.error PyEvent.indexError := by
  intro inputs
  induction inputs with
  | nil => simp [selectLoop]
  | cons selected_index rest ih =>
    rw [selectLoop]
    by_cases hin : 1 ≤ selected_index ∧
        selected_index ≤ (revisions.length : Int)
    · rw [if_pos hin]
      have hlt : (selected_index - 1).toNat < sortedRevs.length := by
        omega
      rw [List.getElem?_eq_getElem hlt]
      simp
    · rw [if_neg hin]
      by_cases h0 : selected_index = 0
      · rw [if_pos h0]
        simp
      · rw [if_neg h0]
        exact ih

/-- C5: over the sorted sequence, a first input of `0` aborts with `None`;
an index in `[1, len]` returns the corresponding entry of the sorted
sequence; any other index is rejected and the loop re-prompts on the
remaining inputs; and no input sequence ever produces an out-of-range
`IndexError`. -/
theorem selectRevision_spec (revisions : List RevisionEntry)
    (inputs rest : List Int) (idx : Int) :
    (selectLoop revisions (sortRevisions revisions) (0 :: rest) =
      Except.ok none) ∧
    (1 ≤ idx → idx ≤ (revisions.length : Int) →
      ∃ r, (sortRevisions revisions)[(idx - 1).toNat]? = some r ∧
        selectLoop revisions (sortRevisions revisions) (idx :: rest) =
          Except.ok (some r.rev)) ∧
    ((idx < 0 ∨ (revisions.length : Int) < idx) →
      selectLoop revisions (sortRevisions revisions) (idx :: rest) =
        selectLoop revisions (sortRevisions revisions) rest) ∧
    (selectLoop revisions (sortRevisions revisions) inputs ≠
      Except.error PyEvent.indexError) := by
  refine ⟨?_, ?_, ?_, ?_⟩
  · rw [selectLoop, if_neg (by omega), if_pos rfl]
  · intro h1 h2
    have hlt : (idx - 1).toNat < (sortRevisions revisions).length := by
      rw [sortRevisions_length]
      omega
    refine ⟨(sortRevisions revisions)[(idx - 1).toNat],
      List.getElem?_eq_getElem hlt, ?_⟩
    rw [selectLoop, if_pos ⟨h1, h2⟩, List.getElem?_eq_getElem hlt]
  · intro hout
    rw [selectLoop, if_neg (by omega), if_neg (by omega)]
  · exact selectLoop_no_indexError revisions (sortRevisions revisions)
      (sortRevisions_length revisions) inputs

/-- Witness for C5 on a concrete two-revision history: selecting index 1
yields a revision of the sorted sequence. -/
theorem selectRevision_spec_witness :
    (1 : Int) ≤ 1 ∧
    (1 : Int) ≤ (([⟨5, 10, "rA"⟩, ⟨3, 7, "rB"⟩] :
        List RevisionEntry).length : Int) ∧
    ∃ r, (sortRevisions
        [⟨5, 10, "rA"⟩, ⟨3, 7, "rB"⟩])[((1 : Int) - 1).toNat]? = some r ∧
      selectLoop [⟨5, 10, "rA"⟩, ⟨3, 7, "rB"⟩]
        (sortRevisions [⟨5, 10, "rA"⟩, ⟨3, 7, "rB"⟩]) [1] =
        Except.ok (some r.rev) :=
  ⟨by decide, by decide,
    (selectRevision_spec [⟨5, 10, "rA"⟩, ⟨3, 7, "rB"⟩] [] [] 1).2.1
      (by decide) (by decide)⟩

/-- C9: listing the revisions of a key with no stored history yields the
empty ordered sequence as a normal (non-error) result, and
`help_select_revision` then returns `None` normally without consuming
any interactive input and without raising. -/
theorem listRevisions_no_history (limit : Nat) (inputs : List Int) :
    listRevisions [] limit = Except.ok [] ∧
    help_select_revision [] inputs = Except.ok none := by
  constructor
  · simp [listRevisions]
  · rfl

end BackupRestore
